import Mathlib

/-!
# Verification of the lighthouse attestation-validation engine

This file embeds, in Lean 4, the attestation-validation pipeline of the
repository together with the BLS secret-key byte codec wrapper and the
wallet filesystem guard logic, and proves the specification claims about
them.

The validation pipeline itself (`validate_attestation` on the validation
context) is exercised by the repository's tests
(`beacon_chain/validation/tests/attestation_validation/tests.rs`) but its
body is not among the available sources, so the pipeline is modelled from
the specification (sections 3, 4.2, 4.3, 4.4 and 7): the data model, the
ordered checks, the bitfield rules, the signature-aggregation step and the
closed error set.  External capabilities (the justified-slot policy of
section 9, message derivation and the BLS `verify` primitive of section 6)
are parameters of the model, exactly as the specification leaves them to
external collaborators.
-/

namespace Lighthouse

/-- Modelled from the spec (section 7): the closed set of validation error
kinds, one per check of section 4.4. -/
inductive AttestationValidationError where
  | SlotTooHigh
  | SlotTooLow
  | JustifiedSlotIncorrect
  | TooManyObliqueHashes
  | BadAttesterMap
  | BadBitfieldLength
  | InvalidBitfieldEndBits
  | UnknownJustifiedBlock
  | BadAggregateSignature
deriving DecidableEq, Repr

/-- Modelled from the spec (sections 3 and 4.3): an aggregate BLS signature
is either the cryptographic identity/empty element (what
`AggregateSignature::new()` produces) or some non-trivial aggregate,
abstracted by an identifier. -/
inductive AggregateSignature where
  | empty
  | sig (id : Nat)
deriving DecidableEq, Repr

/-- Modelled from the spec (section 3): a participation bitfield is a byte
sequence interpreted bit-by-bit; the physical byte length is observable
independently of the logical bit contents. -/
structure Bitfield where
  bytes : List Nat
deriving DecidableEq, Repr

/-- Number of physical bytes of the bitfield. -/
def Bitfield.numBytes (bf : Bitfield) : Nat := bf.bytes.length

/-- The bit at logical position `p`: bit `7 - p % 8` of byte `p / 8`
(most-significant-bit-first within a byte); positions beyond the last byte
read as zero. -/
def Bitfield.getBit (bf : Bitfield) (p : Nat) : Bool :=
  match bf.bytes.get? (p / 8) with
  | some b => Nat.testBit b (7 - p % 8)
  | none => false

/-- Modelled from the spec (section 3): an attestation as handed to the
pipeline.  Digests (`Hash256`) are abstracted as naturals. -/
structure Attestation where
  slot : Nat
  justified_slot : Nat
  justified_block_hash : Nat
  shard_id : Nat
  oblique_parent_hashes : List Nat
  attester_bitfield : Bitfield
  aggregate_sig : AggregateSignature

/-- Modelled from the spec (section 3): the immutable chain-state snapshot
a validation runs against.  The attester map (CommitteeIndex) is an
association list from `(slot, shard_id)` to the ordered committee of
validator indices; `public_keys` associates a validator index with an
abstract public-key point. -/
structure Context where
  block_slot : Nat
  cycle_length : Nat
  last_justified_slot : Nat
  known_block_hashes : List Nat
  attester_map : List ((Nat × Nat) × List Nat)
  public_keys : List (Nat × Nat)

/-- Modelled from the spec (sections 6 and 9): the external capabilities the
pipeline consumes — the justification policy deriving the expected justified
slot from `last_justified_slot` and the attestation slot (section 9 leaves
its formula pluggable), the message digest of the voted-upon data, and the
external BLS verification primitive. -/
structure Externals where
  justifiedSlotFor : Nat → Nat → Nat
  messageOf : Attestation → Nat
  verifySig : AggregateSignature → Nat → Nat → Bool

/-- Modelled from the spec (section 4.2): the participation-bitfield
validator.  Rule 1: the byte length must equal `ceil(committee_size / 8)`,
else `BadBitfieldLength`.  Rule 2: every bit at a logical position `p` with
`committee_size <= p < byte_length * 8` must be zero, else
`InvalidBitfieldEndBits`. -/
def check_bitfield (bf : Bitfield) (committee_size : Nat) :
    Except AttestationValidationError Unit :=
  if bf.numBytes ≠ (committee_size + 7) / 8 then
    .error .BadBitfieldLength
  else if (List.range (bf.numBytes * 8)).any
      (fun p => decide (committee_size ≤ p) && bf.getBit p) then
    .error .InvalidBitfieldEndBits
  else
    .ok ()

/-- The committee members whose bitfield bit (at their ordinal position,
starting at `j`) is set. -/
def claimed_signers (bf : Bitfield) : Nat → List Nat → List Nat
  | _, [] => []
  | j, v :: rest =>
    if bf.getBit j then v :: claimed_signers bf (j + 1) rest
    else claimed_signers bf (j + 1) rest

/-- Look up a validator's public key in the context (abstract point). -/
def pubkey_of (ctx : Context) (v : Nat) : Nat :=
  (ctx.public_keys.lookup v).getD 0

/-- Modelled from the spec (section 4.3): the signature aggregator.  Fails
immediately when the aggregate signature is the identity/empty element;
otherwise combines the claimed signers' public keys (order-independent
combination, modelled as a sum over the abstract points) and delegates to
the external verification primitive. -/
def aggregate_and_verify (ext : Externals) (ctx : Context)
    (committee : List Nat) (bf : Bitfield) (msg : Nat)
    (aggregate_sig : AggregateSignature) : Bool :=
  match aggregate_sig with
  | .empty => false
  | .sig _ =>
    let signers := claimed_signers bf 0 committee
    let agg_key := (signers.map (pubkey_of ctx)).sum
    ext.verifySig aggregate_sig msg agg_key

/-- Builds the voter map for a committee: each committee member (from
ordinal position `j` on) paired with the boolean value of its bitfield
bit. -/
def voter_map_from (bf : Bitfield) : Nat → List Nat → List (Nat × Bool)
  | _, [] => []
  | j, v :: rest => (v, bf.getBit j) :: voter_map_from bf (j + 1) rest

/-- Modelled from the spec (sections 3 and 4.4 step 8): the VoterMap
returned on success — one entry per committee member, pairing the validator
index with whether its bit was set. -/
def voter_map_of (committee : List Nat) (bf : Bitfield) : List (Nat × Bool) :=
  voter_map_from bf 0 committee

/-- Modelled from the spec (section 4.4): the validation pipeline.  The
checks run strictly in order — slot bounds, justified-slot correctness,
oblique-hash bound, committee resolution, bitfield structural validity,
justified-block reachability, signature verification — and the first
failing check short-circuits with its error.  The slot lower bound
`block_slot - cycle_length - 1 <= slot` is read over the integers, i.e. as
`block_slot <= slot + cycle_length + 1`. -/
def validate_attestation (ext : Externals) (ctx : Context) (a : Attestation) :
    Except AttestationValidationError (List (Nat × Bool)) :=
  if ctx.block_slot < a.slot then
    .error .SlotTooHigh
  else if a.slot + ctx.cycle_length + 1 < ctx.block_slot then
    .error .SlotTooLow
  else if a.justified_slot ≠ ext.justifiedSlotFor ctx.last_justified_slot a.slot then
    .error .JustifiedSlotIncorrect
  else if ctx.cycle_length < a.oblique_parent_hashes.length then
    .error .TooManyObliqueHashes
  else
    match List.lookup (a.slot, a.shard_id) ctx.attester_map with
    | none => .error .BadAttesterMap
    | some committee =>
      match check_bitfield a.attester_bitfield committee.length with
      | .error e => .error e
      | .ok _ =>
        if a.justified_block_hash ∈ ctx.known_block_hashes then
          if aggregate_and_verify ext ctx committee a.attester_bitfield
              (ext.messageOf a) a.aggregate_sig then
            .ok (voter_map_of committee a.attester_bitfield)
          else
            .error .BadAggregateSignature
        else
          .error .UnknownJustifiedBlock

/-- The per-check verdicts of section 4.4, in pipeline order, written
directly from the spec's words: each entry is the error the corresponding
check would report, or `none` when that check is satisfied (checks that
need the resolved committee report `none` when the committee is absent,
since committee resolution itself already failed earlier in the order). -/
def check_verdicts (ext : Externals) (ctx : Context) (a : Attestation) :
    List (Option AttestationValidationError) :=
  [ if ctx.block_slot < a.slot then some .SlotTooHigh
    else if a.slot + ctx.cycle_length + 1 < ctx.block_slot then some .SlotTooLow
    else none
  , if a.justified_slot ≠ ext.justifiedSlotFor ctx.last_justified_slot a.slot then
      some .JustifiedSlotIncorrect
    else none
  , if ctx.cycle_length < a.oblique_parent_hashes.length then
      some .TooManyObliqueHashes
    else none
  , match List.lookup (a.slot, a.shard_id) ctx.attester_map with
    | none => some .BadAttesterMap
    | some _ => none
  , match List.lookup (a.slot, a.shard_id) ctx.attester_map with
    | none => none
    | some committee =>
      match check_bitfield a.attester_bitfield committee.length with
      | .error e => some e
      | .ok _ => none
  , if a.justified_block_hash ∈ ctx.known_block_hashes then none
    else some .UnknownJustifiedBlock
  , match List.lookup (a.slot, a.shard_id) ctx.attester_map with
    | none => none
    | some committee =>
      if aggregate_and_verify ext ctx committee a.attester_bitfield
          (ext.messageOf a) a.aggregate_sig then none
      else some .BadAggregateSignature ]

/-- The first `some` entry of a list of optional errors. -/
def first_some : List (Option AttestationValidationError) →
    Option AttestationValidationError
  | [] => none
  | some e :: _ => some e
  | none :: rest => first_some rest

/-- Written from the spec's words (section 4.4 and claim C1): the outcome
as "the error of the earliest violated check, else the voter map of the
resolved committee".  Compared against `validate_attestation` by the
refinement theorem for C1. -/
def validate_via_first_check (ext : Externals) (ctx : Context)
    (a : Attestation) : Except AttestationValidationError (List (Nat × Bool)) :=
  match first_some (check_verdicts ext ctx a) with
  | some e => .error e
  | none =>
    match List.lookup (a.slot, a.shard_id) ctx.attester_map with
    | some committee => .ok (voter_map_of committee a.attester_bitfield)
    | none => .error .BadAttesterMap

/-! ## Concrete test rig

Mirrors `setup_attestation_validation_test(shard_id = 10, validator_count
= 2)` of the repository's tests: a two-member committee for shard 10, a
baseline attestation that passes every check, and external capabilities
that accept the baseline signature. -/

/-- The resolved committee of the rig: two validators. -/
def rig_committee : List Nat := [0, 1]

/-- Rig externals: the justification policy returns `last_justified_slot`
itself, and the external verifier accepts every non-empty signature. -/
def rig_ext : Externals :=
  { justifiedSlotFor := fun last _ => last
  , messageOf := fun _ => 0
  , verifySig := fun _ _ _ => true }

/-- Rig context: block slot 100, cycle length 8, a committee for
`(slot = 100, shard = 10)`, one known block hash `7`. -/
def rig_context : Context :=
  { block_slot := 100
  , cycle_length := 8
  , last_justified_slot := 90
  , known_block_hashes := [7]
  , attester_map := [((100, 10), rig_committee)]
  , public_keys := [(0, 11), (1, 12)] }

/-- Rig baseline attestation: passes all seven checks.  Bits 0 and 1 of the
single bitfield byte are set (most-significant-bit-first: byte `0xC0`). -/
def rig_attestation : Attestation :=
  { slot := 100
  , justified_slot := 90
  , justified_block_hash := 7
  , shard_id := 10
  , oblique_parent_hashes := []
  , attester_bitfield := ⟨[0xC0]⟩
  , aggregate_sig := .sig 1 }

example : validate_attestation rig_ext rig_context rig_attestation =
    .ok [(0, true), (1, true)] := by rfl

/-! ## Ordering of the checks -/

/-- Helper: the pipeline agrees pointwise with the first-failing-check
reading of section 4.4. -/
lemma validate_eq_first_check (ext : Externals) (ctx : Context)
    (a : Attestation) :
    validate_attestation ext ctx a = validate_via_first_check ext ctx a := by
  unfold validate_attestation validate_via_first_check check_verdicts
  by_cases h1 : ctx.block_slot < a.slot
  · simp [h1, first_some]
  by_cases h2 : a.slot + ctx.cycle_length + 1 < ctx.block_slot
  · simp [h1, h2, first_some]
  by_cases h3 : a.justified_slot ≠ ext.justifiedSlotFor ctx.last_justified_slot a.slot
  · simp [h1, h2, h3, first_some]
  by_cases h4 : ctx.cycle_length < a.oblique_parent_hashes.length
  · simp [h1, h2, h3, h4, first_some]
  rcases hm : List.lookup (a.slot, a.shard_id) ctx.attester_map with _ | committee
  · simp [h1, h2, h3, h4, hm, first_some]
  rcases hbf : check_bitfield a.attester_bitfield committee.length with e | u
  · simp [h1, h2, h3, h4, hm, hbf, first_some]
  by_cases h6 : a.justified_block_hash ∈ ctx.known_block_hashes
  · by_cases h7 : aggregate_and_verify ext ctx committee a.attester_bitfield
        (ext.messageOf a) a.aggregate_sig
    · simp [h1, h2, h3, h4, hm, hbf, h6, h7, first_some]
    · simp [h1, h2, h3, h4, hm, hbf, h6, h7, first_some]
  · simp [h1, h2, h3, h4, hm, hbf, h6, first_some]

/-- C1: the checks of the validation pipeline are applied strictly in the
order slot bounds, justified-slot correctness, oblique-hash bound,
committee resolution, bitfield structural validity, justified-block
reachability, signature verification; when several checks are violated
simultaneously, `validate_attestation` returns exactly the error of the
earliest violated check in that order (the first `some` verdict of
`check_verdicts`), and no later check influences the result. -/
theorem validate_attestation_check_order (ext : Externals) (ctx : Context)
    (a : Attestation) :
    validate_attestation ext ctx a = validate_via_first_check ext ctx a :=
  validate_eq_first_check ext ctx a

/-- Decidable equality of `Except` results, for evaluating the pipeline on
concrete inputs. -/
instance exceptDecEq {ε α : Type} [DecidableEq ε] [DecidableEq α] :
    DecidableEq (Except ε α) := fun x y =>
  match x, y with
  | .ok a, .ok b => decidable_of_iff (a = b) (by simp)
  | .error a, .error b => decidable_of_iff (a = b) (by simp)
  | .ok _, .error _ => isFalse (by simp)
  | .error _, .ok _ => isFalse (by simp)

/-! ## The voter map returned on success -/

lemma voter_map_from_length (bf : Bitfield) (j : Nat) (l : List Nat) :
    (voter_map_from bf j l).length = l.length := by
  induction l generalizing j with
  | nil => simp [voter_map_from]
  | cons x rest ih => simp [voter_map_from, ih]

lemma voter_map_from_map_fst (bf : Bitfield) (j : Nat) (l : List Nat) :
    (voter_map_from bf j l).map Prod.fst = l := by
  induction l generalizing j with
  | nil => simp [voter_map_from]
  | cons x rest ih => simp [voter_map_from, ih]

lemma voter_map_from_getElem? (bf : Bitfield) (l : List Nat) :
    ∀ j k v b, (voter_map_from bf j l)[k]? = some (v, b) →
      b = bf.getBit (j + k) := by
  induction l with
  | nil => intro j k v b h; simp [voter_map_from] at h
  | cons x rest ih =>
    intro j k v b h
    cases k with
    | zero =>
      simp [voter_map_from] at h
      simpa using h.2.symm
    | succ k =>
      simp [voter_map_from] at h
      have h2 := ih (j + 1) k v b h
      have h3 : j + 1 + k = j + (k + 1) := by omega
      rw [h3] at h2
      exact h2

/-- C2: when the committee resolves and every check passes, the result is
`ok` with a voter map that has exactly one entry per committee member (its
size equals the committee size), lists exactly the committee's validator
indices (hence contains no index outside the committee), and pairs the
entry at ordinal position `j` with the boolean value of bitfield bit `j`. -/
theorem validate_attestation_ok_voter_map (ext : Externals) (ctx : Context)
    (a : Attestation) (committee : List Nat) (vm : List (Nat × Bool))
    (hc : List.lookup (a.slot, a.shard_id) ctx.attester_map = some committee)
    (hok : validate_attestation ext ctx a = .ok vm) :
    vm.length = committee.length ∧
    vm.map Prod.fst = committee ∧
    ∀ j v b, vm[j]? = some (v, b) → b = a.attester_bitfield.getBit j := by
  unfold validate_attestation at hok
  simp only [hc] at hok
  rcases hbf : check_bitfield a.attester_bitfield committee.length with e | u
  · simp only [hbf] at hok
    split_ifs at hok
  simp only [hbf] at hok
  split_ifs at hok
  all_goals simp at hok
  subst hok
  refine ⟨voter_map_from_length _ _ _, voter_map_from_map_fst _ _ _, ?_⟩
  intro j v b h
  have h2 := voter_map_from_getElem? a.attester_bitfield committee 0 j v b h
  simpa using h2

/-- Witness for C2 at the concrete rig: the baseline attestation validates
and its voter map has one entry per committee member and lists exactly the
committee. -/
theorem validate_attestation_ok_voter_map_witness :
    (voter_map_of rig_committee rig_attestation.attester_bitfield).length =
      rig_committee.length ∧
    (voter_map_of rig_committee rig_attestation.attester_bitfield).map Prod.fst =
      rig_committee :=
  ⟨(validate_attestation_ok_voter_map rig_ext rig_context rig_attestation
      rig_committee _ rfl rfl).1,
   (validate_attestation_ok_voter_map rig_ext rig_context rig_attestation
      rig_committee _ rfl rfl).2.1⟩

/-! ## Bitfield structural rules -/

/-- C3: the structural check fails with `BadBitfieldLength` whenever the
byte length differs from `ceil(committee_size / 8)`, regardless of bit
contents; and with a correct byte length it fails with
`InvalidBitfieldEndBits` exactly when some bit at a logical position `p`
with `committee_size <= p < byte_length * 8` is set. -/
theorem check_bitfield_rules (bf : Bitfield) (committee_size : Nat) :
    (bf.numBytes ≠ (committee_size + 7) / 8 →
      check_bitfield bf committee_size = .error .BadBitfieldLength) ∧
    (bf.numBytes = (committee_size + 7) / 8 →
      (check_bitfield bf committee_size = .error .InvalidBitfieldEndBits ↔
        ∃ p, committee_size ≤ p ∧ p < bf.numBytes * 8 ∧ bf.getBit p = true)) := by
  constructor
  · intro h
    simp [check_bitfield, h]
  · intro h
    unfold check_bitfield
    rw [if_neg (by simp [h])]
    by_cases ha : (List.range (bf.numBytes * 8)).any
        (fun p => decide (committee_size ≤ p) && bf.getBit p)
    · rw [if_pos ha]
      simp only [List.any_eq_true, List.mem_range] at ha
      obtain ⟨p, hp, hpred⟩ := ha
      rw [Bool.and_eq_true] at hpred
      exact iff_of_true rfl ⟨p, by simpa using hpred.1, hp, hpred.2⟩
    · rw [if_neg ha]
      refine iff_of_false (by simp) ?_
      rintro ⟨p, hcs, hlt, hbit⟩
      apply ha
      simp only [List.any_eq_true, List.mem_range]
      exact ⟨p, hlt, by simp [hcs, hbit]⟩

/-- Witness for C3: an all-zero two-byte bitfield for a two-member
committee is one byte too long and fails the length rule; a one-byte
bitfield with the bit at position 2 set (byte `0x20`) for a two-member
committee (not a multiple of 8) fails the end-bit rule. -/
theorem check_bitfield_rules_witness :
    check_bitfield ⟨[0, 0]⟩ 2 = .error .BadBitfieldLength ∧
    check_bitfield ⟨[0x20]⟩ 2 = .error .InvalidBitfieldEndBits :=
  ⟨(check_bitfield_rules ⟨[0, 0]⟩ 2).1 (by decide),
   ((check_bitfield_rules ⟨[0x20]⟩ 2).2 (by decide)).mpr
     ⟨2, by decide, by decide, by decide⟩⟩

/-! ## Slot bounds -/

/-- C4: `validate_attestation` returns `SlotTooHigh` exactly when
`slot > block_slot`, returns `SlotTooLow` exactly when
`slot < block_slot - cycle_length - 1` (read over the integers, i.e.
`slot + cycle_length + 1 < block_slot`), and any slot within the inclusive
range `[block_slot - cycle_length - 1, block_slot]` passes the slot-bounds
check. -/
theorem validate_attestation_slot_bounds (ext : Externals) (ctx : Context)
    (a : Attestation) :
    (validate_attestation ext ctx a = .error .SlotTooHigh ↔
      ctx.block_slot < a.slot) ∧
    (validate_attestation ext ctx a = .error .SlotTooLow ↔
      a.slot + ctx.cycle_length + 1 < ctx.block_slot) ∧
    (a.slot ≤ ctx.block_slot → ctx.block_slot ≤ a.slot + ctx.cycle_length + 1 →
      validate_attestation ext ctx a ≠ .error .SlotTooHigh ∧
      validate_attestation ext ctx a ≠ .error .SlotTooLow) := by
  unfold validate_attestation
  by_cases h1 : ctx.block_slot < a.slot
  · simp [h1]
    omega
  by_cases h2 : a.slot + ctx.cycle_length + 1 < ctx.block_slot
  · simp [h1, h2]
  by_cases h3 : a.justified_slot ≠ ext.justifiedSlotFor ctx.last_justified_slot a.slot
  · simp [h1, h2, h3]
  by_cases h4 : ctx.cycle_length < a.oblique_parent_hashes.length
  · simp [h1, h2, h3, h4]
  rcases hm : List.lookup (a.slot, a.shard_id) ctx.attester_map with _ | committee
  · simp [h1, h2, h3, h4, hm]
  rcases hbf : check_bitfield a.attester_bitfield committee.length with e | u
  · have : e = .BadBitfieldLength ∨ e = .InvalidBitfieldEndBits := by
      revert hbf
      unfold check_bitfield
      split_ifs <;> simp_all
    simp [h1, h2, h3, h4, hm, hbf]
    rcases this with h | h <;> subst h <;> simp
  by_cases h6 : a.justified_block_hash ∈ ctx.known_block_hashes
  · by_cases h7 : aggregate_and_verify ext ctx committee a.attester_bitfield
        (ext.messageOf a) a.aggregate_sig
    · simp [h1, h2, h3, h4, hm, hbf, h6, h7]
    · simp [h1, h2, h3, h4, hm, hbf, h6, h7]
  · simp [h1, h2, h3, h4, hm, hbf, h6]

/-- The rig attestation with its slot one above the block slot. -/
def rig_att_slot_high : Attestation := { rig_attestation with slot := 101 }

/-- The rig attestation with its slot below the lower slot bound
(`block_slot - cycle_length - 2`). -/
def rig_att_slot_low : Attestation := { rig_attestation with slot := 90 }

/-- Witness for C4 at the concrete rig: slot `101` (one above the block
slot) yields `SlotTooHigh`; slot `90` (`block_slot - cycle_length - 2`)
yields `SlotTooLow`. -/
theorem validate_attestation_slot_bounds_witness :
    validate_attestation rig_ext rig_context rig_att_slot_high =
      .error .SlotTooHigh ∧
    validate_attestation rig_ext rig_context rig_att_slot_low =
      .error .SlotTooLow :=
  ⟨(validate_attestation_slot_bounds rig_ext rig_context rig_att_slot_high).1.mpr
      (by decide),
   (validate_attestation_slot_bounds rig_ext rig_context rig_att_slot_low).2.1.mpr
      (by decide)⟩

/-! ## Justified-slot correctness -/

/-- Helper: the bitfield check only ever reports one of the two bitfield
errors. -/
lemma check_bitfield_cases (bf : Bitfield) (committee_size : Nat) :
    check_bitfield bf committee_size = .ok () ∨
    check_bitfield bf committee_size = .error .BadBitfieldLength ∨
    check_bitfield bf committee_size = .error .InvalidBitfieldEndBits := by
  unfold check_bitfield
  split_ifs <;> simp

/-- C5: for an attestation that passes the slot-bounds check,
`validate_attestation` reports `JustifiedSlotIncorrect` exactly when the
attestation's justified slot differs (in either direction) from the
justified slot the context derives for the attestation's slot from
`last_justified_slot` under the justification policy; equality is required
to pass the check. -/
theorem validate_attestation_justified_slot (ext : Externals) (ctx : Context)
    (a : Attestation)
    (h1 : a.slot ≤ ctx.block_slot)
    (h2 : ctx.block_slot ≤ a.slot + ctx.cycle_length + 1) :
    validate_attestation ext ctx a = .error .JustifiedSlotIncorrect ↔
      a.justified_slot ≠ ext.justifiedSlotFor ctx.last_justified_slot a.slot := by
  unfold validate_attestation
  rw [if_neg (by omega), if_neg (by omega)]
  by_cases h3 : a.justified_slot ≠ ext.justifiedSlotFor ctx.last_justified_slot a.slot
  · simp [h3]
  rw [if_neg h3]
  refine iff_of_false ?_ (by simpa using h3)
  by_cases h4 : ctx.cycle_length < a.oblique_parent_hashes.length
  · simp [h4]
  rcases hm : List.lookup (a.slot, a.shard_id) ctx.attester_map with _ | committee
  · simp [h4, hm]
  rcases check_bitfield_cases a.attester_bitfield committee.length with hbf | hbf | hbf <;>
    by_cases h6 : a.justified_block_hash ∈ ctx.known_block_hashes <;>
      by_cases h7 : aggregate_and_verify ext ctx committee a.attester_bitfield
          (ext.messageOf a) a.aggregate_sig <;>
        simp [h4, hm, hbf, h6, h7]

/-- The rig attestation with its justified slot one below the expected
justified slot. -/
def rig_att_bad_justified : Attestation :=
  { rig_attestation with justified_slot := 89 }

/-- Witness for C5 at the concrete rig: the baseline attestation with its
justified slot one less than the context's justified slot is rejected with
`JustifiedSlotIncorrect`. -/
theorem validate_attestation_justified_slot_witness :
    validate_attestation rig_ext rig_context rig_att_bad_justified =
      .error .JustifiedSlotIncorrect :=
  (validate_attestation_justified_slot rig_ext rig_context
      rig_att_bad_justified (by decide) (by decide)).mpr (by decide)

/-! ## Committee resolution -/

/-- The context of the missing-committee counterexample: the rig context
with an empty attester map. -/
def empty_map_context : Context := { rig_context with attester_map := [] }

/-- The attestation of the missing-committee counterexample: the rig
attestation with its slot one above the block slot. -/
def high_slot_attestation : Attestation := { rig_attestation with slot := 101 }

/-- Counterexample to C6 as stated: an attestation whose `(slot, shard_id)`
pair has no entry in the (empty) attester map but whose slot also exceeds
the block slot is rejected with `SlotTooHigh`, not `BadAttesterMap` — the
earlier slot-bounds check fires first. -/
theorem bad_attester_map_counterexample :
    List.lookup (high_slot_attestation.slot, high_slot_attestation.shard_id)
      empty_map_context.attester_map = none ∧
    validate_attestation rig_ext empty_map_context high_slot_attestation =
      .error .SlotTooHigh ∧
    validate_attestation rig_ext empty_map_context high_slot_attestation ≠
      .error .BadAttesterMap := by
  refine ⟨rfl, rfl, ?_⟩
  intro h
  rw [show validate_attestation rig_ext empty_map_context high_slot_attestation =
      .error .SlotTooHigh from rfl] at h
  simp at h

/-- C6 (amended): for an attestation that passes the slot-bounds,
justified-slot and oblique-hash checks, a `(slot, shard_id)` pair with no
entry in the attester map (in particular an empty attester map) is rejected
with `BadAttesterMap` rather than being treated as an empty committee. -/
theorem validate_attestation_bad_attester_map (ext : Externals) (ctx : Context)
    (a : Attestation)
    (h1 : a.slot ≤ ctx.block_slot)
    (h2 : ctx.block_slot ≤ a.slot + ctx.cycle_length + 1)
    (h3 : a.justified_slot = ext.justifiedSlotFor ctx.last_justified_slot a.slot)
    (h4 : a.oblique_parent_hashes.length ≤ ctx.cycle_length)
    (hm : List.lookup (a.slot, a.shard_id) ctx.attester_map = none) :
    validate_attestation ext ctx a = .error .BadAttesterMap := by
  unfold validate_attestation
  rw [if_neg (by omega), if_neg (by omega), if_neg (by simp [h3]),
    if_neg (by omega)]
  simp [hm]

/-- Witness for C6's amended theorem at the concrete rig: the baseline
attestation against the rig context with an empty attester map is rejected
with `BadAttesterMap` (mirrors
`test_attestation_validation_invalid_bad_attester_map`). -/
theorem validate_attestation_bad_attester_map_witness :
    validate_attestation rig_ext empty_map_context rig_attestation =
      .error .BadAttesterMap :=
  validate_attestation_bad_attester_map rig_ext empty_map_context
    rig_attestation (by decide) (by decide) (by decide) (by decide) rfl

/-! ## Signature verification -/

/-- C7: for an attestation that passes every structural check, the
identity/empty aggregate signature is always rejected with
`BadAggregateSignature` — for every external verifier, including one that
accepts everything, the empty signature is never accepted for the claimed
signer set. -/
theorem validate_attestation_empty_signature (ext : Externals) (ctx : Context)
    (a : Attestation) (committee : List Nat)
    (h1 : a.slot ≤ ctx.block_slot)
    (h2 : ctx.block_slot ≤ a.slot + ctx.cycle_length + 1)
    (h3 : a.justified_slot = ext.justifiedSlotFor ctx.last_justified_slot a.slot)
    (h4 : a.oblique_parent_hashes.length ≤ ctx.cycle_length)
    (hm : List.lookup (a.slot, a.shard_id) ctx.attester_map = some committee)
    (hbf : check_bitfield a.attester_bitfield committee.length = .ok ())
    (hkn : a.justified_block_hash ∈ ctx.known_block_hashes)
    (hsig : a.aggregate_sig = .empty) :
    validate_attestation ext ctx a = .error .BadAggregateSignature := by
  unfold validate_attestation
  rw [if_neg (by omega), if_neg (by omega), if_neg (by simp [h3]),
    if_neg (by omega)]
  simp [hm, hbf, hkn, aggregate_and_verify, hsig]

/-- The rig attestation with the freshly-constructed (identity/empty)
aggregate signature. -/
def rig_att_empty_sig : Attestation :=
  { rig_attestation with aggregate_sig := .empty }

/-- Witness for C7 at the concrete rig: the baseline attestation with an
empty aggregate signature is rejected with `BadAggregateSignature`
(mirrors `test_attestation_validation_invalid_empty_signature`), even
though the rig's external verifier accepts every non-empty signature. -/
theorem validate_attestation_empty_signature_witness :
    validate_attestation rig_ext rig_context rig_att_empty_sig =
      .error .BadAggregateSignature :=
  validate_attestation_empty_signature rig_ext rig_context rig_att_empty_sig
    rig_committee (by decide) (by decide) (by decide) (by decide) rfl
    (by decide) (by decide) rfl

/-! ## Totality and the closed error set -/

/-- The nine named validation errors of section 7. -/
def all_validation_errors : List AttestationValidationError :=
  [.SlotTooHigh, .SlotTooLow, .JustifiedSlotIncorrect, .TooManyObliqueHashes,
   .BadAttesterMap, .BadBitfieldLength, .InvalidBitfieldEndBits,
   .UnknownJustifiedBlock, .BadAggregateSignature]

/-- C8: on every attestation, however malformed, and every context,
`validate_attestation` is a total function (the embedding is a Lean
function, so it terminates without panicking) whose result is either `ok`
with a voter map or an `error` carrying one of the nine named values of the
closed error set. -/
theorem validate_attestation_total_closed_errors (ext : Externals)
    (ctx : Context) (a : Attestation) :
    (∃ vm, validate_attestation ext ctx a = .ok vm) ∨
    (∃ e, e ∈ all_validation_errors ∧
      validate_attestation ext ctx a = .error e) := by
  rcases h : validate_attestation ext ctx a with e | vm
  · exact Or.inr ⟨e, by cases e <;> simp [all_validation_errors], rfl⟩
  · exact Or.inl ⟨vm, rfl⟩

/-! ## BLS secret-key byte codec (`crypto/bls/src/secret_key.rs`)

The wrapper `SecretKey` of the source delegates to the external
`milagro_bls` raw secret key; that library is an external collaborator
(spec sections 1 and 6), so its raw key is modelled here. -/

/-- The order of the BLS12-381 scalar field, the modulus of valid secret
keys. -/
def curve_order : Nat :=
  0x73eda753299d7d483339d80809a1d80553bda402fffe5bfeffffffff00000001

/-- A big-endian byte sequence read as a natural number. -/
def bytes_to_nat (l : List Nat) : Nat :=
  l.foldl (fun acc b => acc * 256 + b) 0

/-- The `len`-byte big-endian encoding of a natural number (truncating to
the low `len` bytes). -/
def nat_to_bytes_be : Nat → Nat → List Nat
  | 0, _ => []
  | len + 1, n => nat_to_bytes_be len (n / 256) ++ [n % 256]

lemma bytes_to_nat_append (l : List Nat) (x : Nat) :
    bytes_to_nat (l ++ [x]) = bytes_to_nat l * 256 + x := by
  simp [bytes_to_nat, List.foldl_append]

lemma nat_to_bytes_be_length (len n : Nat) :
    (nat_to_bytes_be len n).length = len := by
  induction len generalizing n with
  | zero => simp [nat_to_bytes_be]
  | succ len ih => simp [nat_to_bytes_be, ih]

lemma bytes_to_nat_nat_to_bytes_be (len : Nat) :
    ∀ n, n < 256 ^ len → bytes_to_nat (nat_to_bytes_be len n) = n := by
  induction len with
  | zero =>
    intro n hn
    simp [nat_to_bytes_be, bytes_to_nat]
    omega
  | succ len ih =>
    intro n hn
    have hdiv : n / 256 < 256 ^ len := by
      have hp : 256 ^ (len + 1) = 256 ^ len * 256 := pow_succ 256 len
      rw [hp] at hn
      omega
    rw [nat_to_bytes_be, bytes_to_nat_append, ih (n / 256) hdiv]
    omega

/-- Modelled from the spec: the raw secret key of the external
`milagro_bls` library (an external collaborator per sections 1 and 6) is a
scalar below the BLS12-381 curve order. -/
structure RawSecretKey where
  val : Nat
  lt : val < curve_order

lemma RawSecretKey.val_inj : ∀ {a b : RawSecretKey}, a.val = b.val → a = b
  | ⟨_, _⟩, ⟨_, _⟩, rfl => rfl

instance : DecidableEq RawSecretKey := fun a b =>
  if h : a.val = b.val then isTrue (RawSecretKey.val_inj h)
  else isFalse (fun he => h (he ▸ rfl))

/-- Modelled from the spec: `milagro_bls`'s `SecretKey::from_bytes`
accepts exactly the canonical 32-byte big-endian encodings of scalars
below the curve order. -/
def RawSecretKey.from_bytes (bytes : List Nat) : Except String RawSecretKey :=
  if h : bytes.length = 32 ∧ bytes_to_nat bytes < curve_order then
    .ok ⟨bytes_to_nat bytes, h.2⟩
  else
    .error "InvalidSecretKey"

/-- Modelled from the spec: `milagro_bls`'s `SecretKey::as_bytes`, the
compressed (canonical 32-byte big-endian) serialization of the scalar. -/
def RawSecretKey.as_bytes (k : RawSecretKey) : List Nat :=
  nat_to_bytes_be 32 k.val

/-- The SSZ decoding error of the wrapper (`ssz::DecodeError`). -/
inductive DecodeError where
  | BytesInvalid (msg : String)
deriving DecidableEq

/-- The wrapper type of `crypto/bls/src/secret_key.rs`: a newtype over the
raw key. -/
structure SecretKey where
  raw : RawSecretKey

lemma SecretKey.raw_inj : ∀ {a b : SecretKey}, a.raw = b.raw → a = b
  | ⟨_⟩, ⟨_⟩, rfl => rfl

instance : DecidableEq SecretKey := fun a b =>
  if h : a.raw = b.raw then isTrue (SecretKey.raw_inj h)
  else isFalse (fun he => h (he ▸ rfl))

/-- `SecretKey::from_bytes` of the source: delegates to the raw key's
parser and wraps a failure in `DecodeError::BytesInvalid` with a
diagnostic message. -/
def SecretKey.from_bytes (bytes : List Nat) : Except DecodeError SecretKey :=
  match RawSecretKey.from_bytes bytes with
  | .ok raw => .ok ⟨raw⟩
  | .error e => .error (.BytesInvalid ("Invalid SecretKey bytes: " ++ e))

/-- `SecretKey::as_bytes` of the source: the underlying point as
compressed bytes. -/
def SecretKey.as_bytes (k : SecretKey) : List Nat :=
  k.raw.as_bytes

lemma curve_order_lt_pow : curve_order < 256 ^ 32 := by
  norm_num [curve_order]

/-- C9: for every byte sequence accepted by `SecretKey::from_bytes`, the
round trip succeeds — parsing the accepted key's compressed-byte
serialization again returns `ok`, and the reparsed key's byte
serialization equals the original key's byte serialization. -/
theorem secret_key_bytes_round_trip (b : List Nat) (k : SecretKey)
    (_h : SecretKey.from_bytes b = .ok k) :
    (SecretKey.from_bytes (SecretKey.as_bytes k)).map SecretKey.as_bytes =
      .ok (SecretKey.as_bytes k) := by
  have hval : bytes_to_nat (nat_to_bytes_be 32 k.raw.val) = k.raw.val :=
    bytes_to_nat_nat_to_bytes_be 32 k.raw.val
      (lt_trans k.raw.lt curve_order_lt_pow)
  have hlen : (SecretKey.as_bytes k).length = 32 :=
    nat_to_bytes_be_length 32 k.raw.val
  unfold SecretKey.from_bytes RawSecretKey.from_bytes
  rw [dif_pos ⟨hlen, by
    simpa [SecretKey.as_bytes, RawSecretKey.as_bytes, hval] using k.raw.lt⟩]
  simp [SecretKey.as_bytes, RawSecretKey.as_bytes, hval]
  rfl

/-- A sample 32-byte secret key encoding: 31 zero bytes then `7`. -/
def sample_secret_bytes : List Nat := List.replicate 31 0 ++ [7]

/-- The secret key those bytes decode to. -/
def sample_secret_key : SecretKey := ⟨⟨7, by norm_num [curve_order]⟩⟩

/-- Witness for C9 at a concrete key: the sample bytes are accepted, and
the accepted key's serialization round-trips. -/
theorem secret_key_bytes_round_trip_witness :
    (SecretKey.from_bytes (SecretKey.as_bytes sample_secret_key)).map
        SecretKey.as_bytes =
      .ok (SecretKey.as_bytes sample_secret_key) :=
  secret_key_bytes_round_trip sample_secret_bytes sample_secret_key (by decide)

/-! ## Wallet directory operations
(`eth2/utils/eth2_wallet_manager/src/filesystem.rs`)

The directory state is modelled as an association list from paths to file
contents; the `std::fs` primitives become state transformers on it, and
each operation returns its result together with the directory state after
it ran. -/

namespace walletfs

/-- A snapshot of the wallet directory: paths with their contents. -/
abbrev FS := List (String × String)

/-- `Path::exists`. -/
def fs_exists (fs : FS) (p : String) : Bool :=
  (fs.lookup p).isSome

/-- `std::fs::copy`: fails (with an `io::Error`, modelled as `none`) when
the source does not exist; otherwise writes the source's contents at the
destination. -/
def copy_file (src dst : String) (fs : FS) : Option FS :=
  match fs.lookup src with
  | some c => some ((dst, c) :: fs.eraseP (fun e => e.1 == dst))
  | none => none

/-- `std::fs::remove_file`: fails when the path does not exist. -/
def remove_file (p : String) (fs : FS) : Option FS :=
  if (fs.lookup p).isSome then some (fs.eraseP (fun e => e.1 == p))
  else none

/-- The `Error` enum of `filesystem.rs` (path payloads kept, `io::Error` /
`WalletError` payloads abstracted away). -/
inductive Error where
  | WalletAlreadyExists (p : String)
  | WalletDoesNotExist (p : String)
  | WalletBackupAlreadyExists (p : String)
  | UnableToCreateBackup
  | UnableToRemoveBackup
  | UnableToRemoveWallet
  | UnableToCreateWallet
  | UnableToReadWallet
  | JsonWriteError
  | JsonReadError
deriving DecidableEq

/-- A wallet: its UUID and its JSON serialization (what `to_json_writer`
writes). -/
structure Wallet where
  uuid : String
  json : String

/-- `wallet_json_path`: the wallet dir joined with the uuid. -/
def wallet_json_path (wallet_dir uuid : String) : String :=
  wallet_dir ++ "/" ++ uuid

/-- `wallet_json_backup_path`: the wallet dir joined with the uuid plus a
`.backup` suffix. -/
def wallet_json_backup_path (wallet_dir uuid : String) : String :=
  wallet_dir ++ "/" ++ uuid ++ ".backup"

/-- `filesystem::create`: refuses to overwrite an existing wallet file,
otherwise creates it and writes the wallet's JSON. -/
def create (wallet_dir : String) (w : Wallet) (fs : FS) :
    Except Error Unit × FS :=
  let json_path := wallet_json_path wallet_dir w.uuid
  if fs_exists fs json_path then
    (.error (.WalletAlreadyExists json_path), fs)
  else
    (.ok (), (json_path, w.json) :: fs)

/-- `filesystem::update`: requires the wallet file to exist and no backup
to exist; then copies the wallet to the backup path, removes the wallet,
re-creates it from the given wallet value, and removes the backup. -/
def update (wallet_dir : String) (w : Wallet) (fs : FS) :
    Except Error Unit × FS :=
  let json_path := wallet_json_path wallet_dir w.uuid
  let backup_path := wallet_json_backup_path wallet_dir w.uuid
  if ¬ fs_exists fs json_path then
    (.error (.WalletDoesNotExist json_path), fs)
  else if fs_exists fs backup_path then
    (.error (.WalletBackupAlreadyExists backup_path), fs)
  else
    match copy_file json_path backup_path fs with
    | none => (.error .UnableToCreateBackup, fs)
    | some fs1 =>
      match remove_file json_path fs1 with
      | none => (.error .UnableToRemoveWallet, fs1)
      | some fs2 =>
        match create wallet_dir w fs2 with
        | (.error e, fs3) => (.error e, fs3)
        | (.ok _, fs3) =>
          match remove_file backup_path fs3 with
          | none => (.error .UnableToRemoveBackup, fs3)
          | some fs4 => (.ok (), fs4)

/-- C10: `update` returns `WalletDoesNotExist` when the wallet's json file
is absent, and `WalletBackupAlreadyExists` when the wallet file is present
but the backup file already exists; in both error cases the directory
state is returned unmodified (no file copied, removed or created).
Likewise `create` returns `WalletAlreadyExists` without writing when the
wallet file already exists. -/
theorem wallet_fs_guards (wallet_dir : String) (w : Wallet) (fs : FS) :
    (fs_exists fs (wallet_json_path wallet_dir w.uuid) = false →
      update wallet_dir w fs =
        (.error (.WalletDoesNotExist (wallet_json_path wallet_dir w.uuid)),
         fs)) ∧
    (fs_exists fs (wallet_json_path wallet_dir w.uuid) = true →
     fs_exists fs (wallet_json_backup_path wallet_dir w.uuid) = true →
      update wallet_dir w fs =
        (.error (.WalletBackupAlreadyExists
          (wallet_json_backup_path wallet_dir w.uuid)), fs)) ∧
    (fs_exists fs (wallet_json_path wallet_dir w.uuid) = true →
      create wallet_dir w fs =
        (.error (.WalletAlreadyExists (wallet_json_path wallet_dir w.uuid)),
         fs)) := by
  refine ⟨fun h => ?_, fun h1 h2 => ?_, fun h => ?_⟩
  · simp [update, h]
  · simp [update, h1, h2]
  · simp [create, h]

/-- A one-wallet directory for the witness: wallet `w1` exists under
`/wallets`, together with a stale backup file. -/
def sample_fs : FS := [("/wallets/w1", "w1json"), ("/wallets/w1.backup", "w1json")]

/-- The wallet whose UUID the sample directory holds. -/
def sample_wallet : Wallet := ⟨"w1", "w1json"⟩

/-- A wallet with no file in the sample directory. -/
def missing_wallet : Wallet := ⟨"w2", "w2json"⟩

/-- Witness for C10 at the concrete directory: updating a wallet whose
file is absent fails with `WalletDoesNotExist` leaving the directory
untouched; updating one whose backup already exists fails with
`WalletBackupAlreadyExists` leaving the directory untouched; creating a
wallet whose file exists fails with `WalletAlreadyExists` leaving the
directory untouched. -/
theorem wallet_fs_guards_witness :
    update "/wallets" missing_wallet sample_fs =
      (.error (.WalletDoesNotExist "/wallets/w2"), sample_fs) ∧
    update "/wallets" sample_wallet sample_fs =
      (.error (.WalletBackupAlreadyExists "/wallets/w1.backup"), sample_fs) ∧
    create "/wallets" sample_wallet sample_fs =
      (.error (.WalletAlreadyExists "/wallets/w1"), sample_fs) :=
  ⟨(wallet_fs_guards "/wallets" missing_wallet sample_fs).1 (by decide),
   (wallet_fs_guards "/wallets" sample_wallet sample_fs).2.1 (by decide)
     (by decide),
   (wallet_fs_guards "/wallets" sample_wallet sample_fs).2.2 (by decide)⟩

end walletfs

end Lighthouse
